import Mathlib

/-!
Shallow embedding of the warp terminal-sharing system (github.com/spolu/warp)
for checking the natural-language specification against the code.

Go maps are embedded as association lists (`List (String × α)`); map read is
`List.lookup`, map write is `aset` (update-in-place, append when absent),
map delete is a filter. Go's `range` iteration order over a map is
unspecified; lists below fix one linearization, and each theorem depending
on iteration is insensitive to the order chosen (map keys are unique, which
appears below as `Nodup` hypotheses on key lists where required).

In-place mutation of a Go receiver is embedded by returning the updated
value; a Go method that both mutates and returns an `error` becomes a
function returning `Option String × State` where the first component is the
error (`none` for nil) and the second is the receiver as left by the call,
including partial mutation performed before an early error return.
-/

namespace Spec2Proof

/-- Association list write, mirroring a Go map assignment `m[k] = v`:
replaces the binding in place when the key is present, appends otherwise. -/
def aset {α : Type} (m : List (String × α)) (k : String) (v : α) :
    List (String × α) :=
  match m with
  | [] => [(k, v)]
  | p :: t => if p.1 = k then (k, v) :: t else p :: aset t k v

/-! ## protocol.go : wire data model -/

/-- Mode is the `warp.Mode` bitset (`uint32`); values stay tiny so `Nat`
with `&&&` embeds it exactly. -/
abbrev Mode := Nat

/-- ModeShellRead is `warp.ModeShellRead = 1`. -/
def ModeShellRead : Mode := 1

/-- ModeShellWrite is `warp.ModeShellWrite = 1 << 1`. -/
def ModeShellWrite : Mode := 2

/-- DefaultHostMode is `warp.DefaultHostMode = ModeShellRead|ModeShellWrite`. -/
def DefaultHostMode : Mode := ModeShellRead ||| ModeShellWrite

/-- DefaultUserMode is `warp.DefaultUserMode = ModeShellRead`. -/
def DefaultUserMode : Mode := ModeShellRead

/-- SessionType is `warp.SessionType` with its three constants
`SsTpHost`, `SsTpShellClient`, `SsTpChatClient` (protocol.go). -/
inductive SessionType
  | host
  | shellClient
  | chatClient
deriving Repr, DecidableEq

/-- Size is `warp.Size` (protocol.go). -/
structure Size where
  rows : Int
  cols : Int
deriving Repr, DecidableEq

/-- WSession is `warp.Session`, the credentials triple (protocol.go). -/
structure WSession where
  token : String
  user : String
  secret : String
deriving Repr, DecidableEq

/-- WUser is `warp.User` (protocol.go). -/
structure WUser where
  token : String
  username : String
  mode : Mode
  hosting : Bool
deriving Repr, DecidableEq

/-- WState is `warp.State`, the warp snapshot sent over the wire
(protocol.go); `users` embeds the Go map `Users map[string]User`. -/
structure WState where
  warp : String
  windowSize : Size
  users : List (String × WUser)
deriving Repr, DecidableEq

/-- HostUpdate is `warp.HostUpdate` (protocol.go); `modes` embeds the Go map
`Modes map[string]Mode`. -/
structure HostUpdate where
  warp : String
  fromU : WSession
  windowSize : Size
  modes : List (String × Mode)
deriving Repr, DecidableEq

/-- SessionHello is `warp.SessionHello` (protocol.go). -/
structure SessionHello where
  warp : String
  fromU : WSession
  version : String
  type_ : SessionType
  username : String
deriving Repr, DecidableEq

/-! ## client/cli.go, client/warp.go : endpoint warp state -/

/-- UserState is `cli.UserState`, the client-side view of one user
(client/cli.go). -/
structure UserState where
  token : String
  username : String
  mode : Mode
  hosting : Bool
deriving Repr, DecidableEq

/-- WarpState is `cli.WarpState` (client/cli.go); the `cli.Warp` variant in
client/warp.go is the same data plus a mutex, which a pure embedding drops. -/
structure WarpState where
  token : String
  windowSize : Size
  users : List (String × UserState)
deriving Repr, DecidableEq

/-- ProtocolUser is `UserState.ProtocolUser` (client/cli.go). -/
def UserState.protocolUser (u : UserState) : WUser :=
  { token := u.token
    username := u.username
    mode := u.mode
    hosting := u.hosting }

/-- NewWarpState embeds `cli.NewWarpState` (client/cli.go): seed the state
with the single user from the hello, promoting it to hosting with the host
default mode when the hello's type is `host`. -/
def newWarpState (hello : SessionHello) : WarpState :=
  let w : WarpState :=
    { token := hello.warp
      windowSize := { rows := 0, cols := 0 }
      users := [(hello.fromU.user,
        { token := hello.fromU.user
          username := hello.username
          mode := DefaultUserMode
          hosting := false })] }
  if hello.type_ = SessionType.host then
    match w.users.lookup hello.fromU.user with
    | some userState =>
        { w with users := (aset w.users hello.fromU.user
            ({ userState with hosting := true, mode := DefaultHostMode })) }
    | none => w
  else w

/-- UpdateLoop embeds the `for token, user := range state.Users` loop of
`WarpState.Update` (client/cli.go:287-329). It threads the partially
mutated users map; an error return carries the map as mutated so far,
matching the Go receiver being left partially updated. -/
def updateLoop (hosting : Bool) :
    List (String × UserState) → List (String × WUser) →
    Option String × List (String × UserState)
  | us, [] => (none, us)
  | us, (token, user) :: rest =>
    if token ≠ user.token then
      (some ("User token mismatch: " ++ token ++ " <> " ++ user.token), us)
    else
      match us.lookup token with
      | none =>
        if hosting && user.hosting then
          (some ("Unexptected hosting user update: " ++ token), us)
        else if hosting && user.mode ≠ DefaultUserMode then
          (some ("Unexptected user update mode: " ++ token), us)
        else
          updateLoop hosting
            (aset us token
              ({ token := token
                 username := user.username
                 mode := DefaultUserMode
                 hosting := user.hosting }))
            rest
      | some userState =>
        updateLoop hosting
          (aset us token
            ({ userState with
                 username := user.username
                 mode := if hosting then userState.mode else user.mode }))
          rest

/-- Update embeds `WarpState.Update` (client/cli.go:275-339, identically
client/warp.go:75-142). The warp-token check happens before any mutation;
the window size is replaced before the user loop (so an error inside the
loop still leaves the new window size and the partially updated users in
the receiver, which the loop itself never reads); users absent from the
snapshot are removed only after the loop completes without error. -/
def WarpState.update (w : WarpState) (state : WState) (hosting : Bool) :
    Option String × WarpState :=
  if state.warp ≠ w.token then
    (some ("Warp token mismatch: " ++ state.warp), w)
  else
    match updateLoop hosting w.users state.users with
    | (some e, us) =>
      (some e, { w with windowSize := state.windowSize, users := us })
    | (none, us) =>
      (none, { w with windowSize := state.windowSize, users := (us.filter (fun p => (state.users.lookup p.1).isSome)) })

/-- GetMode embeds `WarpState.GetMode` (client/cli.go:342-353); the Go
"Unknown user" error becomes `none`. -/
def WarpState.getMode (w : WarpState) (user : String) : Option Mode :=
  (w.users.lookup user).map (fun u => u.mode)

/-- SetMode embeds `WarpState.SetMode` (client/cli.go:356-371); the Go
"Unknown user" error becomes `none`. -/
def WarpState.setMode (w : WarpState) (user : String) (mode : Mode) :
    Option WarpState :=
  match w.users.lookup user with
  | none => none
  | some userState =>
      some { w with users := aset w.users user ({ userState with mode := mode }) }

/-- HostCanReceiveWrite embeds `WarpState.HostCanReceiveWrite`
(client/cli.go:376-384): a flag swept over the users map, set when a
non-hosting user carries the write bit. -/
def WarpState.hostCanReceiveWrite (w : WarpState) : Bool :=
  w.users.foldl
    (fun can p =>
      if !p.2.hosting && p.2.mode &&& ModeShellWrite ≠ 0 then true else can)
    false

/-- ProtocolState embeds `WarpState.ProtocolState` (client/cli.go:388-400),
the `ToSnapshot` of the spec. -/
def WarpState.protocolState (w : WarpState) : WState :=
  { warp := w.token
    windowSize := w.windowSize
    users := w.users.map (fun p => (p.1, p.2.protocolUser)) }

/-- Modes embeds `WarpState.Modes` (client/cli.go:408-416): the mode map of
the non-hosting users. -/
def WarpState.modes (w : WarpState) : List (String × Mode) :=
  (w.users.filter (fun p => !p.2.hosting)).map (fun p => (p.1, p.2.mode))

/-! ## client/session (unnamed/part_005) : endpoint session object

The four sub-streams are embedded as the observable traffic the session has
written on them (`updateWrites` for records encoded on updateC,
`dataWrites` for bytes written on dataC), and the side effects of teardown
as the two booleans `cancelled` (the cancel function was invoked) and
`muxClosed` (the multiplexer was closed). Whether an `Encode` on the
underlying stream fails is environment-determined, so the embedding takes
it as the explicit argument `encodeFails`. -/

/-- CSession is the endpoint `cli.Session` (unnamed/part_005). -/
structure CSession where
  session : WSession
  warpTok : String
  sessionType : SessionType
  username : String
  state : WarpState
  tornDown : Bool
  cancelled : Bool
  muxClosed : Bool
  updateWrites : List HostUpdate
  dataWrites : List (List Nat)
deriving Repr, DecidableEq

/-- TearDown embeds `Session.TearDown` (unnamed/part_005:243-252): when not
already torn down, mark torn down, invoke cancel, close the multiplexer;
otherwise do nothing. -/
def CSession.tearDown (ss : CSession) : CSession :=
  if ss.tornDown then ss
  else { ss with tornDown := true, cancelled := true, muxClosed := true }

/-- WriteDataC embeds `Session.WriteDataC` (unnamed/part_005:153-161): write
to dataC only when the session is not torn down; no error is ever returned
(the Go code drops the write's return values). -/
def CSession.writeDataC (ss : CSession) (data : List Nat) : CSession :=
  if ss.tornDown then ss
  else { ss with dataWrites := ss.dataWrites ++ [data] }

/-- SendHostUpdate embeds `Session.SendHostUpdate`
(unnamed/part_005:255-267): a no-op returning nil once torn down; otherwise
encode the update on updateC, surfacing an encode failure as the error. -/
def CSession.sendHostUpdate (ss : CSession) (encodeFails : Bool)
    (update : HostUpdate) : Option String × CSession :=
  if ss.tornDown then (none, ss)
  else if encodeFails then (some "encode error", ss)
  else (none, { ss with updateWrites := ss.updateWrites ++ [update] })

/-! ## local command server (unnamed/part_003, client/srv.go) -/

/-- CurrentHostUpdate is the `warp.HostUpdate` literal assembled by
`executeAuthorize`/`executeRevoke` before `SendHostUpdate`
(unnamed/part_003:260-264): warp token, session credentials, current window
size and the full modes map. -/
def currentHostUpdate (ss : CSession) : HostUpdate :=
  { warp := ss.warpTok
    fromU := ss.session
    windowSize := ss.state.windowSize
    modes := ss.state.modes }

/-- RevokeLoop embeds the `for _, user := range cmd.Args` loop of
`Srv.executeRevoke` (unnamed/part_003:236-258): for each listed user, read
its mode and clear the ShellWrite bit via `SetMode(user,
mode - mode&ModeShellWrite)`; an unknown user aborts with `user_unknown`,
leaving users processed so far already revoked. -/
def revokeLoop : CSession → List String → Option String × CSession
  | ss, [] => (none, ss)
  | ss, user :: rest =>
    match ss.state.getMode user with
    | none => (some "user_unknown", ss)
    | some mode =>
      match ss.state.setMode user (mode - (mode &&& ModeShellWrite)) with
      | none => (some "user_unknown", ss)
      | some st => revokeLoop { ss with state := st } rest

/-- ExecuteRevoke embeds `Srv.executeRevoke` (unnamed/part_003:219-279,
identically client/srv.go:184-231) for an attached session (the
`s.session == nil` branch replies `disconnected` and is modelled by the
caller holding no session). The first component is the reply's error code
(`none` is the OK reply). -/
def executeRevoke (ss : CSession) (encodeFails : Bool) (args : List String) :
    Option String × CSession :=
  match revokeLoop ss args with
  | (some e, ss1) => (some e, ss1)
  | (none, ss1) =>
    match ss1.sendHostUpdate encodeFails (currentHostUpdate ss1) with
    | (some _, ss2) => (some "update_failed", ss2)
    | (none, ss2) => (none, ss2)

/-! ## daemon (daemon/warp.go, daemon/srv.go, unnamed/part_019) : relay -/

/-- DSessionObj is the relay-side `daemon.Session` (unnamed/part_019): its
credentials (`hello.From`) and username; the channels and context are
observed through the action lists produced by the handlers below. -/
structure DSessionObj where
  session : WSession
  username : String
deriving Repr, DecidableEq

/-- DUserState is `daemon.UserState` (daemon/warp.go:14-19): a user with
its session table. -/
structure DUserState where
  token : String
  username : String
  mode : Mode
  sessions : List (String × DSessionObj)
deriving Repr, DecidableEq

/-- DHostState is `daemon.HostState` (daemon/warp.go:35-38). -/
structure DHostState where
  userState : DUserState
  session : DSessionObj
deriving Repr, DecidableEq

/-- DWarp is `daemon.Warp` (daemon/warp.go:53-64); the rendezvous data
channel and mutex are not part of the pure state. -/
structure DWarp where
  token : String
  windowSize : Size
  host : DHostState
  shellClients : List (String × DUserState)
deriving Repr, DecidableEq

/-- DAction is an observable relay side effect: an `Error` record written
on a session's errorC (`Session.SendError`, unnamed/part_019:146-167, a
no-op if that session is already torn down) or a session context
cancellation (which tears the session down). -/
inductive DAction
  | sendError (sessionToken : String) (code : String)
  | cancel (sessionToken : String)
deriving Repr, DecidableEq

/-- IsErrorRecord observes whether an action writes an `Error` record on
some session's errorC. -/
def DAction.isErrorRecord : DAction → Bool
  | DAction.sendError _ _ => true
  | DAction.cancel _ => false

/-- Sessions embeds `Warp.Sessions` (daemon/warp.go:89-105): every session
of every shell client, then the host user's own client sessions; the host
session itself is excluded. -/
def DWarp.sessionsList (w : DWarp) : List DSessionObj :=
  (w.shellClients.map (fun p => p.2.sessions.map (fun q => q.2))).flatten ++
    w.host.userState.sessions.map (fun q => q.2)

/-- ApplyModes embeds the `for user, mode := range st.Modes` loop of
`Warp.handleHost` (daemon/warp.go:222-231): apply the mode to users present
in the shell-client set; an unknown user only logs a warning. -/
def applyModes (clients : List (String × DUserState))
    (modes : List (String × Mode)) : List (String × DUserState) :=
  modes.foldl
    (fun cs p =>
      match cs.lookup p.1 with
      | some us => aset cs p.1 ({ us with mode := p.2 })
      | none => cs)
    clients

/-- HostUpdateStep is the outcome of one iteration of the host-update
consumer loop in `Warp.handleHost` (daemon/warp.go:184-240) on a decoded
`HostUpdate`: rejection at the warp-token check, rejection at the
credentials check, or acceptance with the resulting warp state. -/
inductive HostUpdateStep
  | errWarpMismatch
  | errCredsMismatch
  | applied (w : DWarp)
deriving Repr, DecidableEq

/-- HandleHostUpdate embeds the body of the `HOSTLOOP` in `Warp.handleHost`
(daemon/warp.go:184-240) for a successfully decoded update: check the warp
token (daemon/warp.go:196), check `From.Token`, `From.User`, `From.Secret`
against the session credentials `ss.session` — the hello's `From`
(daemon/warp.go:208-210) — then replace the window size and apply the mode
changes. `ss` is the host session's credentials. -/
def DWarp.handleHostUpdate (w : DWarp) (ss : WSession) (st : HostUpdate) :
    HostUpdateStep :=
  if st.warp ≠ w.token then
    HostUpdateStep.errWarpMismatch
  else if st.fromU.token ≠ ss.token ∨ st.fromU.user ≠ ss.user ∨
      st.fromU.secret ≠ ss.secret then
    HostUpdateStep.errCredsMismatch
  else
    HostUpdateStep.applied
      { w with
          windowSize := st.windowSize
          shellClients := applyModes w.shellClients st.modes }

/-- SentError gives the `Error.Code` the loop body sends on errorC for a
step (`ss.SendError(ctx, "invalid_host_update", ...)`,
daemon/warp.go:197-203 and 211-217); `none` when the update is accepted. -/
def HostUpdateStep.sentError : HostUpdateStep → Option String
  | HostUpdateStep.errWarpMismatch => some "invalid_host_update"
  | HostUpdateStep.errCredsMismatch => some "invalid_host_update"
  | HostUpdateStep.applied _ => none

/-- Rejected is true when the step breaks `HOSTLOOP`, after which the
goroutine runs `ss.cancel()` (daemon/warp.go:241), tearing the host session
down and stopping consumption of host updates. -/
def HostUpdateStep.rejected : HostUpdateStep → Bool
  | HostUpdateStep.applied _ => false
  | _ => true

/-- HostDisconnectActions embeds the tail of `Warp.handleHost`
(daemon/warp.go:311-321): once the host session's context is done, call
`cancel` on every session returned by `Sessions`; no error record is
written to any of them. -/
def DWarp.hostDisconnectActions (w : DWarp) : List DAction :=
  w.sessionsList.map (fun s => DAction.cancel s.session.token)

/-- CleanupWarp embeds the `delete(s.warps, ss.warp)` performed by
`Srv.handleHost` after the warp handler returns (daemon/srv.go:155-157). -/
def cleanupWarp (warps : List (String × DWarp)) (token : String) :
    List (String × DWarp) :=
  warps.filter (fun p => p.1 ≠ token)

/-- RegisterClient embeds the admission block of `Warp.handleClient`
(daemon/warp.go:330-355): a session whose user token equals the host's user
token is recorded in the host's session table; any other user is inserted
into `shellClients` (created with `ModeShellRead` on first session) and the
session recorded there. A conflicting session with the same session token
is cancelled and replaced; the returned actions carry that cancel. -/
def DWarp.registerClient (w : DWarp) (ss : DSessionObj) :
    List DAction × DWarp :=
  if ss.session.user = w.host.userState.token then
    let conflict :=
      match w.host.userState.sessions.lookup ss.session.token with
      | some _ => [DAction.cancel ss.session.token]
      | none => []
    (conflict,
      { w with host := { w.host with userState := { w.host.userState with
          sessions :=
            (aset w.host.userState.sessions ss.session.token ss) } } })
  else
    let us :=
      match w.shellClients.lookup ss.session.user with
      | some us => us
      | none =>
        { token := ss.session.user
          username := ss.username
          mode := ModeShellRead
          sessions := [] }
    let conflict :=
      match us.sessions.lookup ss.session.token with
      | some _ => [DAction.cancel ss.session.token]
      | none => []
    (conflict,
      { w with shellClients := (aset w.shellClients ss.session.user
          ({ us with sessions := aset us.sessions ss.session.token ss })) })

/-- RcvClientData embeds `Warp.rcvClientData` (daemon/warp.go:139-152). The
Go code reads `w.shellClients[ss.session.User].mode` without checking
presence: on a missing key the map returns a nil `*UserState` and the field
access panics. The embedding returns `none` for that crash; otherwise
`some (some data)` when the chunk is committed to the host-bound data
channel and `some none` when it is dropped for lack of ShellWrite. -/
def DWarp.rcvClientData (w : DWarp) (ss : DSessionObj) (data : List Nat) :
    Option (Option (List Nat)) :=
  match w.shellClients.lookup ss.session.user with
  | none => none
  | some us =>
    if us.mode &&& ModeShellWrite ≠ 0 then some (some data) else some none

/-! ## relay dispatcher (daemon/srv.go) -/

/-- DispatchOutcome describes what `Srv.handle` (daemon/srv.go:71-100) does
with a decoded hello, at the role-routing switch: `routed` is the handler
invoked (`none` when no case matches), `roleError` an error record sent by
the switch itself for an unrecognized role, and `tornDown` the deferred
`ss.TearDown()` that runs when `handle` returns. -/
structure DispatchOutcome where
  routed : Option SessionType
  roleError : Option String
  tornDown : Bool
deriving Repr, DecidableEq

/-- RouteSession embeds the `switch ss.sessionType` of `Srv.handle`
(daemon/srv.go:90-95): cases for `SsTpHost` and `SsTpShellClient` only, no
default case — any other role falls through, sends nothing, and the
deferred `ss.TearDown()` (daemon/srv.go:88) closes the session. -/
def routeSession (t : SessionType) : DispatchOutcome :=
  match t with
  | SessionType.host =>
    { routed := some SessionType.host, roleError := none, tornDown := true }
  | SessionType.shellClient =>
    { routed := some SessionType.shellClient, roleError := none,
      tornDown := true }
  | SessionType.chatClient =>
    { routed := none, roleError := none, tornDown := true }

/-! ## concrete example values used by witnesses and counterexamples -/

/-- Example host user record for witnesses. -/
def exHostU : UserState := ⟨"hU", "alice", 3, true⟩

/-- Example non-hosting user record for witnesses. -/
def exClientU : UserState := ⟨"cU", "bob", 1, false⟩

/-- Example client-side warp state: a host and one read-only client. -/
def exW : WarpState := ⟨"demo", ⟨24, 80⟩, [("hU", exHostU), ("cU", exClientU)]⟩

/-- Example snapshot extending `exW` with a new user carrying mode 3. -/
def exSnapNew : WState :=
  ⟨"demo", ⟨24, 80⟩,
    [("hU", exHostU.protocolUser), ("cU", exClientU.protocolUser),
     ("nU", ⟨"nU", "carol", 3, false⟩)]⟩

/-- Example client-side warp state whose client has write access. -/
def exW2 : WarpState :=
  ⟨"demo", ⟨24, 80⟩, [("hU", exHostU), ("cU", ⟨"cU", "bob", 3, false⟩)]⟩

/-- Example attached host session whose state is `exW2`. -/
def exSess : CSession :=
  ⟨⟨"sT", "hU", "sec"⟩, "demo", SessionType.host, "alice", exW2,
    false, false, false, [], []⟩

/-- Example relay-side host state (host user token "hU"). -/
def exDHost : DHostState :=
  ⟨⟨"hU", "alice", 3, []⟩, ⟨⟨"hS", "hU", "sec"⟩, "alice"⟩⟩

/-- Example relay-side warp with no shell clients. -/
def exDW : DWarp := ⟨"demo", ⟨24, 80⟩, exDHost, []⟩

/-- Example client session whose user token equals the host's user token. -/
def exHostUserClient : DSessionObj := ⟨⟨"cS", "hU", "sec"⟩, "alice"⟩

/-- Example host update whose credentials carry a wrong secret. -/
def exSpoofUpd : HostUpdate :=
  ⟨"demo", ⟨"hS", "hU", "WRONG"⟩, ⟨1, 1⟩, []⟩

/-- Example host update whose credentials match `exDHost`'s session. -/
def exGoodUpd : HostUpdate := ⟨"demo", ⟨"hS", "hU", "sec"⟩, ⟨1, 1⟩, []⟩

/-- Example relay-side warp with one shell-client session. -/
def exDW3 : DWarp :=
  ⟨"demo", ⟨24, 80⟩, exDHost,
    [("cU", ⟨"cU", "bob", 1, [("cS1", ⟨⟨"cS1", "cU", "s2"⟩, "bob"⟩)]⟩)]⟩

/-! ## association list lemmas -/

theorem lookup_cons_self {α : Type} (k : String) (v : α)
    (t : List (String × α)) : ((k, v) :: t).lookup k = some v := by
  simp [List.lookup]

theorem lookup_cons_ne {α : Type} (k a : String) (v : α)
    (t : List (String × α)) (h : k ≠ a) :
    ((a, v) :: t).lookup k = t.lookup k := by
  have hb : (k == a) = false := beq_eq_false_iff_ne.mpr h
  simp [List.lookup, hb]

theorem aset_eq_of_lookup {α : Type} (m : List (String × α)) (k : String)
    (v : α) (h : m.lookup k = some v) : aset m k v = m := by
  induction m with
  | nil => simp [List.lookup] at h
  | cons q t ih =>
    obtain ⟨a, b⟩ := q
    by_cases hk : a = k
    · subst hk
      rw [lookup_cons_self] at h
      obtain rfl : b = v := Option.some.inj h
      simp [aset]
    · rw [lookup_cons_ne k a b t (Ne.symm hk)] at h
      simp [aset, hk, ih h]

theorem lookup_aset_self {α : Type} (m : List (String × α)) (k : String)
    (v : α) : (aset m k v).lookup k = some v := by
  induction m with
  | nil => simp [aset, List.lookup]
  | cons q t ih =>
    obtain ⟨a, b⟩ := q
    by_cases hk : a = k
    · subst hk
      simp [aset, lookup_cons_self]
    · simp only [aset, hk, if_false]
      rw [lookup_cons_ne k a b _ (Ne.symm hk)]
      exact ih

theorem lookup_aset_ne {α : Type} (m : List (String × α)) (k k' : String)
    (v : α) (h : k ≠ k') : (aset m k' v).lookup k = m.lookup k := by
  induction m with
  | nil =>
    show List.lookup k ((k', v) :: []) = List.lookup k []
    rw [lookup_cons_ne k k' v [] h]
  | cons q t ih =>
    obtain ⟨a, b⟩ := q
    by_cases hk : a = k'
    · subst hk
      have ha : aset ((a, b) :: t) a v = (a, v) :: t := by simp [aset]
      rw [ha, lookup_cons_ne k a v t h, lookup_cons_ne k a b t h]
    · simp only [aset, hk, if_false]
      by_cases hka : k = a
      · subst hka
        rw [lookup_cons_self, lookup_cons_self]
      · rw [lookup_cons_ne k a b _ hka, lookup_cons_ne k a b t hka]
        exact ih

theorem lookup_isSome_of_mem {α : Type} (m : List (String × α))
    (k : String) (v : α) (h : (k, v) ∈ m) :
    (m.lookup k).isSome = true := by
  induction m with
  | nil => simp at h
  | cons q t ih =>
    obtain ⟨a, b⟩ := q
    by_cases hk : k = a
    · subst hk
      rw [lookup_cons_self]
      rfl
    · rw [lookup_cons_ne k a b t hk]
      rcases List.mem_cons.mp h with he | ht
      · exact absurd (congrArg Prod.fst he) hk
      · exact ih ht

theorem lookup_eq_of_mem_nodup {α : Type} (m : List (String × α))
    (k : String) (v : α) (hnd : (m.map Prod.fst).Nodup) (h : (k, v) ∈ m) :
    m.lookup k = some v := by
  induction m with
  | nil => simp at h
  | cons q t ih =>
    obtain ⟨a, b⟩ := q
    rcases List.mem_cons.mp h with he | ht
    · obtain ⟨rfl, rfl⟩ := Prod.mk.injEq .. |>.mp he
      exact lookup_cons_self k v t
    · have hk : k ≠ a := by
        intro he
        subst he
        have : k ∈ t.map Prod.fst := List.mem_map.mpr ⟨(k, v), ht, rfl⟩
        exact (List.nodup_cons.mp (by simpa using hnd)).1 this
      rw [lookup_cons_ne k a b t hk]
      exact ih (List.nodup_cons.mp (by simpa using hnd)).2 ht

theorem lookup_map_value {α β : Type} (m : List (String × α)) (f : α → β)
    (k : String) :
    (m.map (fun p => (p.1, f p.2))).lookup k = (m.lookup k).map f := by
  induction m with
  | nil => simp [List.lookup]
  | cons q t ih =>
    obtain ⟨a, b⟩ := q
    by_cases hk : k = a
    · subst hk
      simp only [List.map_cons]
      rw [lookup_cons_self, lookup_cons_self]
      rfl
    · simp only [List.map_cons]
      rw [lookup_cons_ne k a (f b) _ hk, lookup_cons_ne k a b t hk]
      exact ih

theorem lookup_filter_key {α : Type} (m : List (String × α))
    (f : String → Bool) (k : String) :
    (m.filter (fun p => f p.1)).lookup k =
      if f k then m.lookup k else none := by
  induction m with
  | nil => simp [List.lookup]
  | cons q t ih =>
    obtain ⟨a, b⟩ := q
    by_cases hk : k = a
    · subst hk
      cases hf : f k with
      | true =>
        simp only [List.filter_cons, hf, if_true]
        rw [lookup_cons_self, lookup_cons_self]
      | false =>
        simp only [List.filter_cons, hf, Bool.false_eq_true, if_false]
        rw [ih, hf]
        simp
    · cases hf : f a with
      | true =>
        simp only [List.filter_cons, hf, if_true]
        rw [lookup_cons_ne k a b _ hk, lookup_cons_ne k a b t hk]
        exact ih
      | false =>
        simp only [List.filter_cons, hf, Bool.false_eq_true, if_false]
        rw [ih, lookup_cons_ne k a b t hk]

/-! ## update loop lemmas -/

theorem updateLoop_fixed (hosting : Bool) (S : List (String × WUser))
    (us : List (String × UserState))
    (h : ∀ p ∈ S, ∃ u, us.lookup p.1 = some u ∧ p.2 = u.protocolUser ∧
      u.token = p.1) :
    updateLoop hosting us S = (none, us) := by
  induction S with
  | nil => rfl
  | cons q rest ih =>
    obtain ⟨k, v⟩ := q
    obtain ⟨u, hu, hv, ht⟩ := h (k, v) (List.mem_cons_self _ _)
    have hv' : v = u.protocolUser := hv
    have ht' : u.token = k := ht
    have hcond : ¬(k ≠ v.token) := by
      rw [hv']
      intro hne
      exact hne ht'.symm
    have hrec : ({ u with username := v.username, mode := if hosting then u.mode else v.mode } : UserState) = u := by
      rw [hv']
      cases hosting <;> rfl
    show updateLoop hosting us ((k, v) :: rest) = (none, us)
    simp only [updateLoop, if_neg hcond, hu]
    rw [hrec, aset_eq_of_lookup us k u hu]
    exact ih (fun p hp => h p (List.mem_cons_of_mem _ hp))

/-- C4 helper: the snapshot a warp state produces satisfies the fixed-point
hypothesis of `updateLoop_fixed` when keys are unique and each user record
carries its own key as token (both hold for every state the module
constructs: Go map keys are unique and both insertion sites store the key
as the record's token). -/
theorem protocolState_fixed_hyp (w : WarpState)
    (hwf : ∀ p ∈ w.users, p.2.token = p.1)
    (hnd : (w.users.map Prod.fst).Nodup) :
    ∀ p ∈ (w.protocolState).users, ∃ u, w.users.lookup p.1 = some u ∧
      p.2 = u.protocolUser ∧ u.token = p.1 := by
  intro p hp
  obtain ⟨q, hq, hpq⟩ := List.mem_map.mp hp
  obtain ⟨a, b⟩ := q
  obtain rfl : (a, b.protocolUser) = p := hpq
  exact ⟨b, lookup_eq_of_mem_nodup w.users a b hnd hq, rfl, hwf (a, b) hq⟩

theorem updateLoop_lookup_preserved (hosting : Bool)
    (S : List (String × WUser)) (us : List (String × UserState)) (k : String)
    (h : ∀ p ∈ S, p.1 ≠ k) :
    ((updateLoop hosting us S).2).lookup k = us.lookup k := by
  induction S generalizing us with
  | nil => rfl
  | cons q rest ih =>
    obtain ⟨a, v⟩ := q
    have hak : a ≠ k := h (a, v) (List.mem_cons_self _ _)
    have hka : k ≠ a := Ne.symm hak
    have hrest : ∀ p ∈ rest, p.1 ≠ k :=
      fun p hp => h p (List.mem_cons_of_mem _ hp)
    show ((updateLoop hosting us ((a, v) :: rest)).2).lookup k = us.lookup k
    by_cases htok : a ≠ v.token
    · simp only [updateLoop, if_pos htok]
    · cases hlu : us.lookup a with
      | none =>
        by_cases hb1 : (hosting && v.hosting) = true
        · simp only [updateLoop, if_neg htok, hlu, if_pos hb1]
        · by_cases hb2 : (hosting && decide (v.mode ≠ DefaultUserMode)) = true
          · simp only [updateLoop, if_neg htok, hlu, if_neg hb1, if_pos hb2]
          · simp only [updateLoop, if_neg htok, hlu, if_neg hb1, if_neg hb2]
            rw [ih _ hrest, lookup_aset_ne us k a _ hka]
      | some w0 =>
        simp only [updateLoop, if_neg htok, hlu]
        rw [ih _ hrest, lookup_aset_ne us k a _ hka]

theorem updateLoop_err_of_new_hosting (S : List (String × WUser))
    (us : List (String × UserState)) (k : String) (u : WUser)
    (hnd : (S.map Prod.fst).Nodup) (hmem : (k, u) ∈ S)
    (habs : us.lookup k = none)
    (hbad : u.hosting = true ∨ u.mode ≠ DefaultUserMode) :
    ((updateLoop true us S).1).isSome = true := by
  induction S generalizing us with
  | nil => simp at hmem
  | cons q rest ih =>
    obtain ⟨a, v⟩ := q
    have hnd' : (rest.map Prod.fst).Nodup :=
      (List.nodup_cons.mp (by simpa using hnd)).2
    show ((updateLoop true us ((a, v) :: rest)).1).isSome = true
    by_cases htok : a ≠ v.token
    · simp only [updateLoop, if_pos htok]
      rfl
    · by_cases hak : a = k
      · subst hak
        have huv : u = v := by
          rcases List.mem_cons.mp hmem with he | ht
          · exact (Prod.mk.injEq .. |>.mp he).2
          · exfalso
            have : a ∈ rest.map Prod.fst :=
              List.mem_map.mpr ⟨(a, u), ht, rfl⟩
            exact (List.nodup_cons.mp (by simpa using hnd)).1 this
        subst huv
        by_cases hb1 : (true && u.hosting) = true
        · simp only [updateLoop, if_neg htok, habs, if_pos hb1]
          rfl
        · have hu : u.hosting = false := by simpa using hb1
          have hm : u.mode ≠ DefaultUserMode := by
            rcases hbad with hb | hb
            · rw [hu] at hb; exact absurd hb (by simp)
            · exact hb
          have hb2 : (true && decide (u.mode ≠ DefaultUserMode)) = true := by
            simpa using hm
          simp only [updateLoop, if_neg htok, habs, if_neg hb1, if_pos hb2]
          rfl
      · have hmem' : (k, u) ∈ rest := by
          rcases List.mem_cons.mp hmem with he | ht
          · exact absurd ((Prod.mk.injEq .. |>.mp he).1).symm hak
          · exact ht
        have hka : k ≠ a := fun he => hak he.symm
        cases hlu : us.lookup a with
        | none =>
          by_cases hb1 : (true && v.hosting) = true
          · simp only [updateLoop, if_neg htok, hlu, if_pos hb1]
            rfl
          · by_cases hb2 : (true && decide (v.mode ≠ DefaultUserMode)) = true
            · simp only [updateLoop, if_neg htok, hlu, if_neg hb1,
                if_pos hb2]
              rfl
            · simp only [updateLoop, if_neg htok, hlu, if_neg hb1, if_neg hb2]
              exact ih _ hnd' hmem'
                (by rw [lookup_aset_ne us k a _ hka]; exact habs)
        | some w0 =>
          simp only [updateLoop, if_neg htok, hlu]
          exact ih _ hnd' hmem'
            (by rw [lookup_aset_ne us k a _ hka]; exact habs)

theorem updateLoop_new_user_inserted (hosting : Bool)
    (S : List (String × WUser)) (us : List (String × UserState)) (k : String)
    (u : WUser) (hnd : (S.map Prod.fst).Nodup) (hmem : (k, u) ∈ S)
    (habs : us.lookup k = none)
    (hok : (updateLoop hosting us S).1 = none) :
    ((updateLoop hosting us S).2).lookup k =
      some ⟨k, u.username, DefaultUserMode, u.hosting⟩ := by
  induction S generalizing us with
  | nil => simp at hmem
  | cons q rest ih =>
    obtain ⟨a, v⟩ := q
    have hnd' : (rest.map Prod.fst).Nodup :=
      (List.nodup_cons.mp (by simpa using hnd)).2
    by_cases htok : a ≠ v.token
    · simp only [updateLoop, if_pos htok] at hok
      exact absurd hok (by simp)
    · by_cases hak : a = k
      · subst hak
        have huv : u = v := by
          rcases List.mem_cons.mp hmem with he | ht
          · exact (Prod.mk.injEq .. |>.mp he).2
          · exfalso
            have : a ∈ rest.map Prod.fst :=
              List.mem_map.mpr ⟨(a, u), ht, rfl⟩
            exact (List.nodup_cons.mp (by simpa using hnd)).1 this
        subst huv
        by_cases hb1 : (hosting && u.hosting) = true
        · simp only [updateLoop, if_neg htok, habs, if_pos hb1] at hok
          exact absurd hok (by simp)
        · by_cases hb2 : (hosting && decide (u.mode ≠ DefaultUserMode)) = true
          · simp only [updateLoop, if_neg htok, habs, if_neg hb1,
              if_pos hb2] at hok
            exact absurd hok (by simp)
          · have hnotk : ∀ p ∈ rest, p.1 ≠ a := by
              intro p hp he
              have : a ∈ rest.map Prod.fst := List.mem_map.mpr ⟨p, hp, he⟩
              exact (List.nodup_cons.mp (by simpa using hnd)).1 this
            simp only [updateLoop, if_neg htok, habs, if_neg hb1, if_neg hb2]
            rw [updateLoop_lookup_preserved hosting rest _ a hnotk,
              lookup_aset_self]
      · have hmem' : (k, u) ∈ rest := by
          rcases List.mem_cons.mp hmem with he | ht
          · exact absurd ((Prod.mk.injEq .. |>.mp he).1).symm hak
          · exact ht
        have hka : k ≠ a := fun he => hak he.symm
        cases hlu : us.lookup a with
        | none =>
          by_cases hb1 : (hosting && v.hosting) = true
          · simp only [updateLoop, if_neg htok, hlu, if_pos hb1] at hok
            exact absurd hok (by simp)
          · by_cases hb2 : (hosting && decide (v.mode ≠ DefaultUserMode)) =
                true
            · simp only [updateLoop, if_neg htok, hlu, if_neg hb1,
                if_pos hb2] at hok
              exact absurd hok (by simp)
            · simp only [updateLoop, if_neg htok, hlu, if_neg hb1,
                if_neg hb2] at hok ⊢
              exact ih _ hnd' hmem'
                (by rw [lookup_aset_ne us k a _ hka]; exact habs) hok
        | some w0 =>
          simp only [updateLoop, if_neg htok, hlu] at hok ⊢
          exact ih _ hnd' hmem'
            (by rw [lookup_aset_ne us k a _ hka]; exact habs) hok

/-! ## lemmas for the write-sweep, revoke and session object -/

theorem hostSweep_aux (l : List (String × UserState)) (b : Bool) :
    (l.foldl
      (fun can p =>
        if !p.2.hosting && p.2.mode &&& ModeShellWrite ≠ 0 then true else can)
      b) = true ↔
      (b = true ∨ ∃ p ∈ l, p.2.hosting = false ∧
        p.2.mode &&& ModeShellWrite ≠ 0) := by
  induction l generalizing b with
  | nil => simp
  | cons q t ih =>
    rw [List.foldl_cons, ih]
    by_cases hc : (!q.2.hosting && decide (q.2.mode &&& ModeShellWrite ≠ 0)) =
        true
    · rw [if_pos hc]
      have hparts := (Bool.and_eq_true _ _).mp hc
      constructor
      · intro _
        right
        exact ⟨q, List.mem_cons_self _ _, by simpa using hparts.1,
          by simpa using hparts.2⟩
      · intro _
        left
        rfl
    · rw [if_neg hc]
      constructor
      · rintro (hb | ⟨p, hp, h1, h2⟩)
        · exact Or.inl hb
        · exact Or.inr ⟨p, List.mem_cons_of_mem _ hp, h1, h2⟩
      · rintro (hb | ⟨p, hp, h1, h2⟩)
        · exact Or.inl hb
        · rcases List.mem_cons.mp hp with he | ht
          · exfalso
            apply hc
            subst he
            simp [h1, h2]
          · exact Or.inr ⟨p, ht, h1, h2⟩

theorem clear_write_bit (m : Nat) : (m - (m &&& 2)) &&& 2 = 0 := by
  have h1 : m &&& 2 = (m.testBit 1).toNat * 2 ^ 1 := by
    simpa using Nat.and_two_pow m 1
  have h3 : (m - 2) &&& 2 = ((m - 2).testBit 1).toNat * 2 ^ 1 := by
    simpa using Nat.and_two_pow (m - 2) 1
  by_cases hb : m.testBit 1
  · have h2 : m &&& 2 = 2 := by simp [h1, hb]
    have hd : m / 2 % 2 = 1 := by
      have := Nat.testBit_to_div_mod (x := m) (i := 1)
      rw [hb] at this
      simpa using this.symm
    have h4 : (m - 2).testBit 1 = false := by
      rw [Nat.testBit_to_div_mod]
      simp only [pow_one, decide_eq_false_iff_not]
      omega
    simp [h2, h3, h4]
  · have h2 : m &&& 2 = 0 := by simp [h1, hb]
    simp [h2]

theorem setMode_getMode_self (w : WarpState) (user : String) (m : Mode)
    (w' : WarpState) (h : w.setMode user m = some w') :
    w'.getMode user = some m := by
  unfold WarpState.setMode at h
  cases hlu : w.users.lookup user with
  | none => rw [hlu] at h; exact Option.noConfusion h
  | some st =>
    rw [hlu] at h
    obtain rfl := Option.some.inj h
    unfold WarpState.getMode
    show ((aset w.users user ({ st with mode := m })).lookup user).map (fun u => u.mode) = some m
    rw [lookup_aset_self]
    rfl

theorem setMode_getMode_ne (w : WarpState) (user v : String) (m : Mode)
    (w' : WarpState) (h : w.setMode user m = some w') (hne : v ≠ user) :
    w'.getMode v = w.getMode v := by
  unfold WarpState.setMode at h
  cases hlu : w.users.lookup user with
  | none => rw [hlu] at h; exact Option.noConfusion h
  | some st =>
    rw [hlu] at h
    obtain rfl := Option.some.inj h
    unfold WarpState.getMode
    show ((aset w.users user ({ st with mode := m })).lookup v).map (fun u => u.mode) = (w.users.lookup v).map (fun u => u.mode)
    rw [lookup_aset_ne w.users v user _ hne]

theorem revokeLoop_getMode_preserved (args : List String) (ss : CSession)
    (u : String) (h : u ∉ args) :
    ((revokeLoop ss args).2).state.getMode u = ss.state.getMode u := by
  induction args generalizing ss with
  | nil => rfl
  | cons a rest ih =>
    have hua : u ≠ a := fun he => h (he ▸ List.mem_cons_self a rest)
    have hur : u ∉ rest := fun hr => h (List.mem_cons_of_mem _ hr)
    show ((revokeLoop ss (a :: rest)).2).state.getMode u = ss.state.getMode u
    cases hga : ss.state.getMode a with
    | none => simp only [revokeLoop, hga]
    | some m0 =>
      cases hset : ss.state.setMode a (m0 - (m0 &&& ModeShellWrite)) with
      | none => simp only [revokeLoop, hga, hset]
      | some st =>
        simp only [revokeLoop, hga, hset]
        rw [ih { ss with state := st } hur]
        exact setMode_getMode_ne ss.state a u _ st hset hua

theorem revokeLoop_cleared (args : List String) (ss : CSession) (u : String)
    (hmem : u ∈ args) (hok : (revokeLoop ss args).1 = none) :
    ∃ m, ((revokeLoop ss args).2).state.getMode u = some m ∧
      m &&& ModeShellWrite = 0 := by
  induction args generalizing ss with
  | nil => simp at hmem
  | cons a rest ih =>
    cases hga : ss.state.getMode a with
    | none =>
      exfalso
      simp only [revokeLoop, hga] at hok
      exact Option.noConfusion hok
    | some m0 =>
      cases hset : ss.state.setMode a (m0 - (m0 &&& ModeShellWrite)) with
      | none =>
        exfalso
        simp only [revokeLoop, hga, hset] at hok
        exact Option.noConfusion hok
      | some st =>
        simp only [revokeLoop, hga, hset] at hok ⊢
        by_cases hur : u ∈ rest
        · exact ih { ss with state := st } hur hok
        · have hua : u = a := by
            rcases List.mem_cons.mp hmem with he | ht
            · exact he
            · exact absurd ht hur
          subst hua
          rw [revokeLoop_getMode_preserved rest _ u hur]
          refine ⟨m0 - (m0 &&& ModeShellWrite), ?_, clear_write_bit m0⟩
          exact setMode_getMode_self ss.state u _ st hset

theorem revokeLoop_unknown (args : List String) (ss : CSession) (u : String)
    (hmem : u ∈ args) (hnone : ss.state.getMode u = none) :
    (revokeLoop ss args).1 = some "user_unknown" := by
  induction args generalizing ss with
  | nil => simp at hmem
  | cons a rest ih =>
    cases hga : ss.state.getMode a with
    | none => simp only [revokeLoop, hga]
    | some m0 =>
      have hua : u ≠ a := by
        intro he
        rw [he, hga] at hnone
        exact Option.noConfusion hnone
      have hur : u ∈ rest := by
        rcases List.mem_cons.mp hmem with he | ht
        · exact absurd he hua
        · exact ht
      cases hset : ss.state.setMode a (m0 - (m0 &&& ModeShellWrite)) with
      | none => simp only [revokeLoop, hga, hset]
      | some st =>
        simp only [revokeLoop, hga, hset]
        refine ih { ss with state := st } hur ?_
        show st.getMode u = none
        rw [setMode_getMode_ne ss.state a u _ st hset hua]
        exact hnone

theorem sendHostUpdate_state (ss : CSession) (ef : Bool) (upd : HostUpdate) :
    ((ss.sendHostUpdate ef upd).2).state = ss.state := by
  unfold CSession.sendHostUpdate
  by_cases h1 : ss.tornDown
  · rw [if_pos h1]
  · rw [if_neg h1]
    by_cases h2 : ef
    · rw [if_pos h2]
    · rw [if_neg h2]

theorem tearDown_tornDown (ss : CSession) : ss.tearDown.tornDown = true := by
  unfold CSession.tearDown
  by_cases h : ss.tornDown
  · rw [if_pos h]
    exact h
  · rw [if_neg h]

theorem tearDown_of_tornDown (ss : CSession) (h : ss.tornDown = true) :
    ss.tearDown = ss := by
  unfold CSession.tearDown
  rw [if_pos h]

theorem wsession_ne_iff (x y : WSession) :
    x ≠ y ↔ (x.token ≠ y.token ∨ x.user ≠ y.user ∨ x.secret ≠ y.secret) := by
  obtain ⟨a, b, c⟩ := x
  obtain ⟨d, e, f⟩ := y
  simp [WSession.mk.injEq]
  tauto

/-! ## claims -/

/-- C2 counterexample: on the endpoint warp state `exW` (host plus one
read-only client), applying a snapshot that adds the new non-hosting user
"nU" with mode 3 under `hosting = false` succeeds but inserts "nU" with
the default user mode 1, not with the mode 3 carried by the snapshot, so
the claim's hosting-false clause is false on the code. -/
theorem c2_counterexample :
    (exSnapNew.users.lookup "nU").map WUser.mode = some 3 ∧
      exW.users.lookup "nU" = none ∧
      (exW.update exSnapNew false).1 = none ∧
      ((exW.update exSnapNew false).2).users.lookup "nU" =
        some ⟨"nU", "carol", 1, false⟩ := by
  decide

/-- C2 (amended): for every user present in the snapshot but absent
locally, when hosting-role is true the update errors if the snapshot user
has Hosting=true or a non-default mode; whenever the update succeeds
(either role) the user is inserted with mode = DefaultUserMode — the
snapshot's mode is never used for a newly inserted user. -/
theorem c2_new_user_inserted_default_mode (w : WarpState) (s : WState)
    (k : String) (u : WUser) (hnd : (s.users.map Prod.fst).Nodup)
    (hmem : (k, u) ∈ s.users) (habs : w.users.lookup k = none) :
    ((u.hosting = true ∨ u.mode ≠ DefaultUserMode) →
        ((w.update s true).1).isSome = true) ∧
      (∀ hosting, (w.update s hosting).1 = none →
        ((w.update s hosting).2).users.lookup k =
          some ⟨k, u.username, DefaultUserMode, u.hosting⟩) := by
  constructor
  · intro hbad
    unfold WarpState.update
    by_cases hw : s.warp ≠ w.token
    · rw [if_pos hw]
      rfl
    · rw [if_neg hw]
      have hloop := updateLoop_err_of_new_hosting s.users w.users k u hnd
        hmem habs hbad
      cases hres : updateLoop true w.users s.users with
      | mk e us =>
        rw [hres] at hloop
        cases e with
        | none => simp at hloop
        | some msg => rfl
  · intro hosting hok
    unfold WarpState.update at hok ⊢
    by_cases hw : s.warp ≠ w.token
    · rw [if_pos hw] at hok
      exact absurd hok (by simp)
    · rw [if_neg hw] at hok ⊢
      cases hres : updateLoop hosting w.users s.users with
      | mk e us =>
        rw [hres] at hok
        cases e with
        | some msg => simp at hok
        | none =>
          have hins := updateLoop_new_user_inserted hosting s.users w.users
            k u hnd hmem habs (by rw [hres])
          rw [hres] at hins
          have hfk := lookup_filter_key us
            (fun a => (s.users.lookup a).isSome) k
          simp only at hfk
          have hsome : (s.users.lookup k).isSome = true :=
            lookup_isSome_of_mem s.users k u hmem
          show (us.filter (fun p => (s.users.lookup p.1).isSome)).lookup k =
            some ⟨k, u.username, DefaultUserMode, u.hosting⟩
          rw [hfk, if_pos hsome]
          exact hins

/-- C2 witness: the amended statement instantiated on `exW` and
`exSnapNew` for the new user "nU": the hosting-role update errors (mode 3
is not the default) and the successful hosting-false update inserts "nU"
with the default mode. -/
theorem c2_new_user_inserted_default_mode_witness :
    ((exW.update exSnapNew true).1).isSome = true ∧
      ((exW.update exSnapNew false).2).users.lookup "nU" =
        some ⟨"nU", "carol", DefaultUserMode, false⟩ := by
  have h := c2_new_user_inserted_default_mode exW exSnapNew "nU"
    ⟨"nU", "carol", 3, false⟩ (by decide) (by decide) (by decide)
  exact ⟨h.1 (by decide), h.2 false (by decide)⟩

/-- C4: applying a warp state's own snapshot (`ProtocolState`, the spec's
`ToSnapshot`) back to it through `Update` under either hosting role
succeeds and is a no-op, so the resulting snapshot equals the original.
The two hypotheses are the Go-map data invariants of the users table: keys
are unique, and every record stores its own key as its token (both hold
for every state `NewWarpState`/`Update` construct). -/
theorem c4_update_of_own_snapshot_noop (w : WarpState) (hosting : Bool)
    (hwf : ∀ p ∈ w.users, p.2.token = p.1)
    (hnd : (w.users.map Prod.fst).Nodup) :
    w.update w.protocolState hosting = (none, w) ∧
      ((w.update w.protocolState hosting).2).protocolState =
        w.protocolState := by
  have hfix : updateLoop hosting w.users (w.protocolState).users =
      (none, w.users) :=
    updateLoop_fixed hosting _ _ (protocolState_fixed_hyp w hwf hnd)
  have hfil : w.users.filter
      (fun p => (((w.protocolState).users).lookup p.1).isSome) = w.users := by
    apply List.filter_eq_self.mpr
    intro p hp
    have hm : ((w.protocolState).users).lookup p.1 =
        (w.users.lookup p.1).map UserState.protocolUser :=
      lookup_map_value w.users UserState.protocolUser p.1
    rw [hm, Option.isSome_map']
    exact lookup_isSome_of_mem w.users p.1 p.2 hp
  have hmain : w.update w.protocolState hosting = (none, w) := by
    unfold WarpState.update
    rw [if_neg (by simp [WarpState.protocolState])]
    rw [hfix]
    simp only [hfil]
    rfl
  exact ⟨hmain, by rw [hmain]⟩

/-- C4 witness: the round trip on the concrete state `exW`, both roles. -/
theorem c4_update_of_own_snapshot_noop_witness :
    exW.update exW.protocolState true = (none, exW) ∧
      exW.update exW.protocolState false = (none, exW) :=
  ⟨(c4_update_of_own_snapshot_noop exW true (by decide) (by decide)).1,
    (c4_update_of_own_snapshot_noop exW false (by decide) (by decide)).1⟩

/-- C5: `HostCanReceiveWrite` returns true exactly when some user in the
local state is non-hosting and carries the ShellWrite bit. -/
theorem c5_hostCanReceiveWrite_iff (w : WarpState) :
    w.hostCanReceiveWrite = true ↔
      ∃ p ∈ w.users, p.2.hosting = false ∧
        p.2.mode &&& ModeShellWrite ≠ 0 := by
  unfold WarpState.hostCanReceiveWrite
  rw [hostSweep_aux]
  simp

/-- C5 witness: the equivalence applied to `exW2`, whose client "cU"
holds ShellWrite, so the sweep reports true. -/
theorem c5_hostCanReceiveWrite_iff_witness :
    exW2.hostCanReceiveWrite = true :=
  (c5_hostCanReceiveWrite_iff exW2).mpr
    ⟨("cU", ⟨"cU", "bob", 3, false⟩), by decide, rfl, by decide⟩

/-- C10: an endpoint `Update` call whose snapshot carries a different warp
token returns an error and leaves the receiver untouched — the token check
runs before the window size assignment and the user loop. -/
theorem c10_update_warp_mismatch_unchanged (w : WarpState) (s : WState)
    (hosting : Bool) (h : s.warp ≠ w.token) :
    w.update s hosting = (some ("Warp token mismatch: " ++ s.warp), w) := by
  unfold WarpState.update
  rw [if_pos h]

/-- C10 witness: a snapshot for warp "other" applied to `exW` (warp
"demo") errs and changes nothing. -/
theorem c10_update_warp_mismatch_unchanged_witness :
    exW.update ⟨"other", ⟨1, 1⟩, []⟩ true =
      (some ("Warp token mismatch: " ++ "other"), exW) :=
  c10_update_warp_mismatch_unchanged exW ⟨"other", ⟨1, 1⟩, []⟩ true
    (by decide)

/-- C1: a decoded host update whose `From.Token`, `From.User` and
`From.Secret` do not all equal the session's hello credentials makes the
relay send `invalid_host_update` on errorC and break the update loop,
after which the goroutine cancels the session (teardown); an update whose
three credential fields all match is never rejected by the credential
check (the separate warp-token check may still reject it, with the same
error code, which the first conjunct covers). -/
theorem c1_host_update_credential_guard (w : DWarp) (ss : WSession)
    (st : HostUpdate) :
    (st.fromU ≠ ss →
      (w.handleHostUpdate ss st).sentError = some "invalid_host_update" ∧
        (w.handleHostUpdate ss st).rejected = true) ∧
      (st.fromU = ss →
        w.handleHostUpdate ss st ≠ HostUpdateStep.errCredsMismatch) := by
  unfold DWarp.handleHostUpdate
  by_cases hw : st.warp ≠ w.token
  · rw [if_pos hw]
    exact ⟨fun _ => ⟨rfl, rfl⟩, fun _ h => HostUpdateStep.noConfusion h⟩
  · rw [if_neg hw]
    by_cases hc : st.fromU.token ≠ ss.token ∨ st.fromU.user ≠ ss.user ∨
        st.fromU.secret ≠ ss.secret
    · rw [if_pos hc]
      refine ⟨fun _ => ⟨rfl, rfl⟩, fun he => ?_⟩
      exfalso
      rcases hc with h | h | h <;> rw [he] at h <;> exact h rfl
    · rw [if_neg hc]
      refine ⟨fun hne => ?_, fun _ h => HostUpdateStep.noConfusion h⟩
      exact absurd ((wsession_ne_iff st.fromU ss).mp hne) hc

/-- C1 witness: the spoofed update `exSpoofUpd` (wrong secret) against the
host session of `exDW` is rejected with `invalid_host_update` and tears
the loop down, while the matching `exGoodUpd` is not rejected by the
credential check. -/
theorem c1_host_update_credential_guard_witness :
    (exDW.handleHostUpdate ⟨"hS", "hU", "sec"⟩ exSpoofUpd).sentError =
        some "invalid_host_update" ∧
      (exDW.handleHostUpdate ⟨"hS", "hU", "sec"⟩ exSpoofUpd).rejected =
        true ∧
      exDW.handleHostUpdate ⟨"hS", "hU", "sec"⟩ exGoodUpd ≠
        HostUpdateStep.errCredsMismatch := by
  have h1 := (c1_host_update_credential_guard exDW ⟨"hS", "hU", "sec"⟩
    exSpoofUpd).1 (by decide)
  have h2 := (c1_host_update_credential_guard exDW ⟨"hS", "hU", "sec"⟩
    exGoodUpd).2 (by decide)
  exact ⟨h1.1, h1.2, h2⟩

/-- C3 counterexample: on the concrete warp `exDW3` with one remaining
client session, the host-disconnection phase of `handleHost` emits no
error record at all — in particular no `host_disconnected` — it only
cancels the session, so the claim is false on the code. -/
theorem c3_counterexample :
    exDW3.sessionsList.length = 1 ∧
      exDW3.hostDisconnectActions.all
        (fun a => ! a.isErrorRecord) = true := by
  decide

/-- C3 (amended): when the host session's context is cancelled the relay
cancels (tears down) every remaining client session of the warp without
sending any error record to them, and the dispatcher then deletes the warp
from its map. -/
theorem c3_host_disconnect_cancels_silently (w : DWarp)
    (warps : List (String × DWarp)) :
    (∀ s ∈ w.sessionsList,
        DAction.cancel s.session.token ∈ w.hostDisconnectActions) ∧
      (∀ a ∈ w.hostDisconnectActions, a.isErrorRecord = false) ∧
      (cleanupWarp warps w.token).lookup w.token = none := by
  refine ⟨?_, ?_, ?_⟩
  · intro s hs
    exact List.mem_map.mpr ⟨s, hs, rfl⟩
  · intro a ha
    obtain ⟨s, _, rfl⟩ := List.mem_map.mp ha
    rfl
  · have h := lookup_filter_key warps (fun a => decide (a ≠ w.token)) w.token
    simpa [cleanupWarp] using h

/-- C3 witness: the amended statement on the concrete warp `exDW3`: its
one remaining client session is cancelled and the dispatcher's map no
longer binds "demo" afterwards. -/
theorem c3_host_disconnect_cancels_silently_witness :
    DAction.cancel "cS1" ∈ exDW3.hostDisconnectActions ∧
      (cleanupWarp [("demo", exDW3)] "demo").lookup "demo" = none := by
  have h := c3_host_disconnect_cancels_silently exDW3 [("demo", exDW3)]
  exact ⟨h.1 ⟨⟨"cS1", "cU", "s2"⟩, "bob"⟩ (by decide), h.2.2⟩

/-- C6 counterexample: on the attached session `exSess` whose client "cU"
holds mode 3 (ShellRead|ShellWrite), a revoke command with an empty
argument list replies OK and publishes a host update, but clears nothing:
"cU" still holds ShellWrite afterwards, so "empty list means revoke all
clients" is false on the code (that expansion lives in the CLI front-end,
which resolves the empty argument to the writing clients before sending
the command). -/
theorem c6_counterexample :
    (executeRevoke exSess false []).1 = none ∧
      ((executeRevoke exSess false []).2).state = exSess.state ∧
      ((executeRevoke exSess false []).2).state.getMode "cU" = some 3 ∧
      ((executeRevoke exSess false []).2).updateWrites.length = 1 := by
  decide

/-- C6 (amended): a revoke with an empty argument list changes no user's
mode, still publishes a `HostUpdate` carrying the full modes map and
replies OK (when the session is live and the encode succeeds); for a
non-empty list, every listed user of a successful revoke ends with its
ShellWrite bit cleared, and any listed user unknown to the state makes
the reply `user_unknown`. -/
theorem executeRevoke_err (ss ss1 : CSession) (ef : Bool)
    (args : List String) (e : String)
    (hrev : revokeLoop ss args = (some e, ss1)) :
    executeRevoke ss ef args = (some e, ss1) := by
  unfold executeRevoke
  rw [hrev]

theorem executeRevoke_ok (ss ss1 ss2 : CSession) (ef : Bool)
    (args : List String)
    (hrev : revokeLoop ss args = (none, ss1))
    (hsend : ss1.sendHostUpdate ef (currentHostUpdate ss1) = (none, ss2)) :
    executeRevoke ss ef args = (none, ss2) := by
  unfold executeRevoke
  rw [hrev]
  simp only []
  rw [hsend]

theorem executeRevoke_sendFail (ss ss1 ss2 : CSession) (ef : Bool)
    (args : List String) (e2 : String)
    (hrev : revokeLoop ss args = (none, ss1))
    (hsend : ss1.sendHostUpdate ef (currentHostUpdate ss1) =
      (some e2, ss2)) :
    executeRevoke ss ef args = (some "update_failed", ss2) := by
  unfold executeRevoke
  rw [hrev]
  simp only []
  rw [hsend]

theorem executeRevoke_post_state (ss : CSession) (ef : Bool)
    (args : List String) :
    ((executeRevoke ss ef args).2).state = ((revokeLoop ss args).2).state := by
  cases hrev : revokeLoop ss args with
  | mk e ss1 =>
    cases e with
    | some m => rw [executeRevoke_err ss ss1 ef args m hrev]
    | none =>
      cases hsend : ss1.sendHostUpdate ef (currentHostUpdate ss1) with
      | mk e2 ss2 =>
        have hst := sendHostUpdate_state ss1 ef (currentHostUpdate ss1)
        rw [hsend] at hst
        cases e2 with
        | some m2 =>
          rw [executeRevoke_sendFail ss ss1 ss2 ef args m2 hrev hsend]
          exact hst
        | none =>
          rw [executeRevoke_ok ss ss1 ss2 ef args hrev hsend]
          exact hst

theorem c6_revoke_semantics (ss : CSession) (ef : Bool)
    (args : List String) :
    ((executeRevoke ss ef []).2).state = ss.state ∧
      (ef = false → ss.tornDown = false →
        executeRevoke ss ef [] = (none,
          { ss with updateWrites :=
              ss.updateWrites ++ [currentHostUpdate ss] })) ∧
      ((executeRevoke ss ef args).1 = none → ∀ u ∈ args,
        ∃ m, ((executeRevoke ss ef args).2).state.getMode u = some m ∧
          m &&& ModeShellWrite = 0) ∧
      (∀ u ∈ args, ss.state.getMode u = none →
        (executeRevoke ss ef args).1 = some "user_unknown") := by
  refine ⟨?_, ?_, ?_, ?_⟩
  · rw [executeRevoke_post_state]
    rfl
  · intro hef htd
    subst hef
    have hs : ss.sendHostUpdate false (currentHostUpdate ss) =
        (none, { ss with updateWrites :=
          ss.updateWrites ++ [currentHostUpdate ss] }) := by
      unfold CSession.sendHostUpdate
      rw [if_neg (by rw [htd]; exact Bool.false_ne_true),
        if_neg Bool.false_ne_true]
    exact executeRevoke_ok ss ss _ false [] rfl hs
  · intro hok u hu
    cases hrev : revokeLoop ss args with
    | mk e ss1 =>
      cases e with
      | some msg =>
        rw [executeRevoke_err ss ss1 ef args msg hrev] at hok
        exact absurd hok (by simp)
      | none =>
        have hcl := revokeLoop_cleared args ss u hu (by rw [hrev])
        rw [hrev] at hcl
        cases hsend : ss1.sendHostUpdate ef (currentHostUpdate ss1) with
        | mk e2 ss2 =>
          have hst := sendHostUpdate_state ss1 ef (currentHostUpdate ss1)
          rw [hsend] at hst
          cases e2 with
          | some msg2 =>
            rw [executeRevoke_sendFail ss ss1 ss2 ef args msg2 hrev hsend]
              at hok
            exact absurd hok (by simp)
          | none =>
            rw [executeRevoke_ok ss ss1 ss2 ef args hrev hsend]
            obtain ⟨m, hm, hbit⟩ := hcl
            refine ⟨m, ?_, hbit⟩
            show ss2.state.getMode u = some m
            rw [hst]
            exact hm
  · intro u hu hnone
    have hrl := revokeLoop_unknown args ss u hu hnone
    cases hrev : revokeLoop ss args with
    | mk e ss1 =>
      rw [hrev] at hrl
      obtain rfl : e = some "user_unknown" := hrl
      rw [executeRevoke_err ss ss1 ef args "user_unknown" hrev]

/-- C6 witness: the amended statement on `exSess`: revoking ["cU"] clears
the write bit from "cU", and revoking an unknown token replies
`user_unknown`. -/
theorem c6_revoke_semantics_witness :
    (∃ m, ((executeRevoke exSess false ["cU"]).2).state.getMode "cU" =
        some m ∧ m &&& ModeShellWrite = 0) ∧
      (executeRevoke exSess false ["zz"]).1 = some "user_unknown" := by
  refine ⟨(c6_revoke_semantics exSess false ["cU"]).2.2.1 (by decide) "cU"
    (by decide), ?_⟩
  exact (c6_revoke_semantics exSess false ["zz"]).2.2.2 "zz" (by decide)
    (by decide)

/-- C7 counterexample: a hello carrying the reserved chat role reaches the
dispatcher switch, matches no case, and the session is closed by the
deferred TearDown with no handler invoked — but no error record is sent,
and in particular not `unsupported_role` (that code appears nowhere in the
relay), so the claim's error-sending half is false on the code. -/
theorem c7_counterexample :
    (routeSession SessionType.chatClient).roleError = none ∧
      (routeSession SessionType.chatClient).roleError ≠
        some "unsupported_role" ∧
      (routeSession SessionType.chatClient).tornDown = true := by
  decide

/-- C7 (amended): a session whose role is neither host nor shell-client is
routed to no handler and torn down by the deferred TearDown, silently —
without writing any error record. -/
theorem c7_unknown_role_silent_teardown (t : SessionType)
    (h1 : t ≠ SessionType.host) (h2 : t ≠ SessionType.shellClient) :
    routeSession t =
      { routed := none, roleError := none, tornDown := true } := by
  cases t
  · exact absurd rfl h1
  · exact absurd rfl h2
  · rfl

/-- C7 witness: the amended statement at the reserved chat role. -/
theorem c7_unknown_role_silent_teardown_witness :
    routeSession SessionType.chatClient =
      { routed := none, roleError := none, tornDown := true } :=
  c7_unknown_role_silent_teardown SessionType.chatClient (by decide)
    (by decide)

/-- C8: `TearDown` is idempotent — a second call leaves the session state
exactly as the first left it — and once it has run, `WriteDataC` and
`SendHostUpdate` are silent no-ops: they write nothing to the sub-streams
and surface no error, whatever the underlying encoder would have done. -/
theorem c8_teardown_idempotent_writes_noop (ss : CSession) (d : List Nat)
    (ef : Bool) (upd : HostUpdate) :
    ss.tearDown.tearDown = ss.tearDown ∧
      ss.tearDown.writeDataC d = ss.tearDown ∧
      ss.tearDown.sendHostUpdate ef upd = (none, ss.tearDown) := by
  have htd := tearDown_tornDown ss
  refine ⟨?_, ?_, ?_⟩
  · exact tearDown_of_tornDown ss.tearDown htd
  · unfold CSession.writeDataC
    rw [if_pos htd]
  · unfold CSession.sendHostUpdate
    rw [if_pos htd]

/-- C9: evaluation at the failing input. The client session
`exHostUserClient` carries the host's own user token "hU": `handleClient`
admits it into the host's session table (first conjunct) rather than into
`shellClients`, so when a data chunk arrives, `rcvClientData`'s map read
`w.shellClients[ss.session.User]` finds no entry (second conjunct) — in
the Go code that is a nil-pointer dereference of `.mode`, a relay panic,
so the claimed key-presence safety property fails. -/
theorem c9_host_user_client_data_crash :
    (((exDW.registerClient exHostUserClient).2).host.userState.sessions.lookup
        "cS").isSome = true ∧
      ((exDW.registerClient exHostUserClient).2).rcvClientData
        exHostUserClient [120] = none := by
  decide

end Spec2Proof
